import Mathlib

/-!
Verification development for the caching / rate-limiting layer
(`utils/cache_manager.py`) and the passage-retrieval subsystem
(`ai/rag_system.py`, `ai/groq_client.py`) of the Indian Financial
Analyzer repository.

The Python code is shallowly embedded:
* timestamps (Python `time.time()` floats) are modelled as integers; all
  comparisons in the source are order comparisons, which are preserved;
* the filesystem below the cache directory is modelled inside `CMState`:
  `entries` holds the parsed content of the per-entry JSON files (keyed by
  their file name, which the source derives as `md5(key).hexdigest()`,
  modelled by an explicit `md5Hex` function argument), and `usageFile`
  holds the parsed content of `api_usage.json`;
* Python dicts are modelled as insertion-ordered association lists;
* chunk/query text is modelled as `List Char` (Python `str`, `len` =
  number of characters);
* the LLM network boundary, the ChromaDB vector store and JSON parsing of
  free-form LLM output are opaque collaborators, modelled as environment
  functions; floats returned as ChromaDB distances are modelled as
  rationals (no claim depends on float rounding).
-/

/-- One record of `self._api_usage[api_name]` in `CacheManager`:
`{"count": ..., "last_reset": ...}`. -/
structure Counter where
  count : Nat
  lastReset : Int
  deriving DecidableEq

/-- Parsed content of one cache file `<md5hex>.json` written by
`CacheManager.set`: `{"data": ..., "cached_at": ..., "expires_at": ...}`. -/
structure Entry (α : Type) where
  data : α
  cachedAt : Int
  expiresAt : Int
  deriving DecidableEq

/-- State of a `CacheManager` instance together with the files under its
cache directory.  `tavilyLimit`/`groqLimit` are the configured
`TAVILY_RATE_LIMIT_PER_DAY`/`GROQ_RATE_LIMIT_PER_DAY`; `cacheExpiry` is
`CACHE_EXPIRY_SECONDS`; `enabled` is the caching flag. -/
structure CMState (α : Type) where
  enabled : Bool
  cacheExpiry : Int
  tavilyLimit : Nat
  groqLimit : Nat
  entries : List (String × Entry α)
  usageFile : Option (List (String × Counter))
  apiUsage : List (String × Counter)
  deriving DecidableEq

/-- Dict lookup on an association list (Python `d[k]` / `k in d`). -/
def lookupA {β : Type} (l : List (String × β)) (k : String) : Option β :=
  (l.find? (fun e => e.1 == k)).map (·.2)

/-- Dict update on an association list: replace in place when the key is
present, append otherwise (Python `d[k] = v` keeps insertion order). -/
def setA {β : Type} (l : List (String × β)) (k : String) (v : β) : List (String × β) :=
  if (l.find? (fun e => e.1 == k)).isSome then
    l.map (fun e => if e.1 == k then (k, v) else e)
  else
    l ++ [(k, v)]

/-- `CacheManager.__init__`: stores the flags, seeds `_api_usage` with
zero counters for `tavily` and `groq`, then `_load_api_usage` replaces
the whole dict with the parsed `api_usage.json` when that file exists. -/
def cmInit {α : Type} (now : Int) (enabled : Bool) (cacheExpiry : Int)
    (tavilyLimit groqLimit : Nat) (entries : List (String × Entry α))
    (usageFile : Option (List (String × Counter))) : CMState α :=
  { enabled := enabled
    cacheExpiry := cacheExpiry
    tavilyLimit := tavilyLimit
    groqLimit := groqLimit
    entries := entries
    usageFile := usageFile
    apiUsage :=
      match usageFile with
      | some u => u
      | none => [("tavily", ⟨0, now⟩), ("groq", ⟨0, now⟩)] }

/-- `CacheManager.get`: returns `None` when caching is disabled or the
file is absent; deletes the file and returns `None` when
`expires_at < time.time()`; otherwise returns the stored data. -/
def cmGet {α : Type} (md5Hex : String → String) (s : CMState α) (now : Int)
    (key : String) : Option α × CMState α :=
  if s.enabled = false then (none, s)
  else
    let name := md5Hex key
    match lookupA s.entries name with
    | none => (none, s)
    | some e =>
      if e.expiresAt < now then
        (none, { s with entries := s.entries.filter (fun en => ¬ (en.1 == name)) })
      else
        (some e.data, s)

/-- `CacheManager.set`: no-op when caching is disabled; otherwise writes
`{"data": data, "cached_at": now, "expires_at": now + ttl}` where
`ttl = ttl or self.cache_expiry` — Python truthiness, so both `None`
and `0` fall back to the default expiry. -/
def cmSet {α : Type} (md5Hex : String → String) (s : CMState α) (now : Int)
    (key : String) (data : α) (ttl : Option Int) : CMState α :=
  if s.enabled = false then s
  else
    let t : Int :=
      match ttl with
      | none => s.cacheExpiry
      | some v => if v = 0 then s.cacheExpiry else v
    { s with entries := setA s.entries (md5Hex key) ⟨data, now, now + t⟩ }

/-- `CacheManager.clear`: with a key, unlinks the file `<md5hex>.json`
for that key; with no key, unlinks every file matching the glob
`*.json` under the cache directory — which includes `api_usage.json`,
the persisted API-usage counters. -/
def cmClear {α : Type} (md5Hex : String → String) (s : CMState α)
    (key : Option String) : CMState α :=
  match key with
  | some k =>
    { s with
      entries := s.entries.filter (fun en => ¬ (en.1 == md5Hex k))
      usageFile := if md5Hex k == "api_usage" then none else s.usageFile }
  | none => { s with entries := [], usageFile := none }

/-- Python `str.lower()` (ASCII case folding suffices for the API names
compared in the source). -/
def pyLower (s : String) : String := ⟨s.data.map Char.toLower⟩

/-- The per-API daily limit chosen inside `track_api_call`:
`TAVILY_RATE_LIMIT_PER_DAY` for `"tavily"`, `GROQ_RATE_LIMIT_PER_DAY`
for `"groq"`, `None` for any other name. -/
def rateLimitFor {α : Type} (s : CMState α) (api : String) : Option Nat :=
  if pyLower api == "tavily" then some s.tavilyLimit
  else if pyLower api == "groq" then some s.groqLimit
  else none

/-- `CacheManager.track_api_call`: creates a missing counter, resets it
when more than 24h (86400 s) have elapsed since `last_reset`, allows
unknown APIs unconditionally, denies without incrementing once
`count >= rate_limit`, and otherwise increments and persists the whole
usage dict to `api_usage.json` (`_save_api_usage`). -/
def trackApiCall {α : Type} (s : CMState α) (now : Int) (api : String) :
    Bool × CMState α :=
  let u0 :=
    match lookupA s.apiUsage api with
    | none => setA s.apiUsage api ⟨0, now⟩
    | some _ => s.apiUsage
  let u1 :=
    match lookupA u0 api with
    | some c => if now - c.lastReset > 86400 then setA u0 api ⟨0, now⟩ else u0
    | none => u0
  match rateLimitFor s api with
  | none => (true, { s with apiUsage := u1 })
  | some limit =>
    match lookupA u1 api with
    | none => (true, { s with apiUsage := u1 })
    | some c =>
      if c.count ≥ limit then
        (false, { s with apiUsage := u1 })
      else
        let u2 := setA u1 api ⟨c.count + 1, c.lastReset⟩
        (true, { s with apiUsage := u2, usageFile := some u2 })

/-- `n` consecutive calls to `track_api_call` at the same timestamp,
collecting the returned booleans. -/
def trackN {α : Type} (s : CMState α) (now : Int) (api : String) :
    Nat → List Bool × CMState α
  | 0 => ([], s)
  | n + 1 =>
    let r := trackApiCall s now api
    let rest := trackN r.2 now api n
    (r.1 :: rest.1, rest.2)

/-- Python `str.strip()`: drop leading and trailing whitespace. -/
def pyStrip (s : List Char) : List Char :=
  ((s.dropWhile Char.isWhitespace).reverse.dropWhile Char.isWhitespace).reverse

/-- Split a whitespace run off the front of a character list. -/
def wsRun : List Char → List Char × List Char
  | [] => ([], [])
  | c :: cs =>
    if c.isWhitespace then
      let r := wsRun cs
      (c :: r.1, r.2)
    else ([], c :: cs)

/-- The suffix of a whitespace run after its last newline. -/
def afterLastNl (run : List Char) : List Char :=
  (run.reverse.takeWhile (fun c => ¬ (c == '\n'))).reverse

/-- Worker for `re.split` with the pattern newline–whitespace–newline
used by the source to cut a book into paragraphs.  A separator match
starts at a newline whose following maximal whitespace run contains a
further newline, and greedily ends at the last newline of that run.
`fuel` bounds the recursion; it is called with more fuel than characters,
so the fuel-exhausted branch is never reached. -/
def reSplitAux : Nat → List Char → List Char → List (List Char)
  | 0, acc, rest => [acc.reverse ++ rest]
  | _ + 1, acc, [] => [acc.reverse]
  | fuel + 1, acc, c :: cs =>
    if c == '\n' && (wsRun cs).1.contains '\n' then
      acc.reverse :: reSplitAux fuel [] (afterLastNl (wsRun cs).1 ++ (wsRun cs).2)
    else
      reSplitAux fuel (c :: acc) cs

/-- `re.split` over blank-line separators (the pattern used at
`rag_system.py` to split book content into paragraphs). -/
def reSplitBlank (s : List Char) : List (List Char) :=
  reSplitAux (s.length + 1) [] s

/-- `[p.strip() for p in re.split(..., content) if p.strip()]`:
the stripped, non-empty paragraphs of a document, in source order. -/
def paragraphs (content : List Char) : List (List Char) :=
  ((reSplitBlank content).map pyStrip).filter (fun p => ¬ p.isEmpty)

/-- The two-character separator `"\n\n"` inserted between merged
paragraphs. -/
def parSep : List Char := ['\n', '\n']

/-- The paragraph-merging loop of `_extract_relevant_passages` (and,
with a larger bound, `_process_books`): greedily appends a paragraph to
the current chunk while `len(current_chunk) + len(p) <= max_chunk_length`
(note: the two-character `"\n\n"` joiner is not counted by this check),
otherwise flushes the current chunk (when non-empty) and starts a new
one from `p`. -/
def buildChunksAux (maxLen : Nat) : List Char → List (List Char) → List (List Char)
  | cur, [] => if cur.isEmpty then [] else [cur]
  | cur, p :: ps =>
    if cur.length + p.length ≤ maxLen then
      buildChunksAux maxLen (if cur.isEmpty then p else cur ++ parSep ++ p) ps
    else if cur.isEmpty then
      buildChunksAux maxLen p ps
    else
      cur :: buildChunksAux maxLen p ps

/-- Chunk a paragraph list with the given maximum chunk length. -/
def buildChunks (maxLen : Nat) (ps : List (List Char)) : List (List Char) :=
  buildChunksAux maxLen [] ps

/-- `"\n\n".join(...)` over character lists. -/
def joinSep : List (List Char) → List Char
  | [] => []
  | [p] => p
  | p :: ps => p ++ parSep ++ joinSep ps

/-- An ASCII word character, as matched by the `\w` class in the
keyword regex of the source (the books are ASCII text). -/
def isWordChar (c : Char) : Bool := c.isAlphanum || c == '_'

/-- Lowercase a character list (Python `str.lower()`). -/
def lowerL (s : List Char) : List Char := s.map Char.toLower

/-- Accumulator worker for `findallW`: `cur` holds the reversed current
word run. -/
def findallWAux (cur : List Char) : List Char → List (List Char)
  | [] => if cur.isEmpty then [] else [cur.reverse]
  | c :: cs =>
    if isWordChar c then findallWAux (c :: cur) cs
    else if cur.isEmpty then findallWAux [] cs
    else cur.reverse :: findallWAux [] cs

/-- `re.findall` of word runs: the maximal runs of word characters, in
order. -/
def findallW (s : List Char) : List (List Char) := findallWAux [] s

/-- `query_keywords = set(re.findall(r'\w+', query.lower()))` — the set
is modelled as a deduplicated list (only membership is ever used). -/
def queryKeywords (q : List Char) : List (List Char) :=
  (findallW (lowerL q)).dedup

/-- `score = sum(1 for kw in query_keywords if kw in chunk_text)` with
`chunk_text = chunk.lower()` — the number of distinct query terms that
occur as substrings of the lowercased chunk. -/
def chunkScore (kws : List (List Char)) (chunk : List Char) : Nat :=
  (kws.filter (fun kw => decide (kw <:+: lowerL chunk))).length

/-- `for i, chunk in enumerate(chunks): scored_chunks.append((score, i, chunk))`. -/
def scoredChunksAux (kws : List (List Char)) : Nat → List (List Char) →
    List (Nat × Nat × List Char)
  | _, [] => []
  | i, c :: cs => (chunkScore kws c, i, c) :: scoredChunksAux kws (i + 1) cs

/-- The scored chunk list, enumerated from index 0. -/
def scoredChunks (kws : List (List Char)) (chunks : List (List Char)) :
    List (Nat × Nat × List Char) :=
  scoredChunksAux kws 0 chunks

/-- The comparison realised by `scored_chunks.sort(reverse=True)` on the
`(score, index, chunk)` tuples: descending lexicographic order.  The
enumeration indices are pairwise distinct, so Python never reaches the
third (string) component; the relation therefore ignores it. -/
def rTup (x y : Nat × Nat × List Char) : Prop :=
  y.1 < x.1 ∨ (x.1 = y.1 ∧ y.2.1 ≤ x.2.1)

instance : DecidableRel rTup := fun x y =>
  inferInstanceAs (Decidable (y.1 < x.1 ∨ (x.1 = y.1 ∧ y.2.1 ≤ x.2.1)))

instance : IsTotal (Nat × Nat × List Char) rTup :=
  ⟨fun a b => by unfold rTup; omega⟩

instance : IsTrans (Nat × Nat × List Char) rTup :=
  ⟨fun a b c hab hbc => by unfold rTup at hab hbc ⊢; omega⟩

/-- `scored_chunks.sort(reverse=True)`. -/
def sortDesc (l : List (Nat × Nat × List Char)) : List (Nat × Nat × List Char) :=
  List.insertionSort rTup l

/-- The lexical ranking of a document's chunks against a query. -/
def rankedCandidates (query : List Char) (chunks : List (List Char)) :
    List (Nat × Nat × List Char) :=
  sortDesc (scoredChunks (queryKeywords query) chunks)

/-- `top_chunks = scored_chunks[:min(max_passages*2, len(scored_chunks))]`. -/
def topCandidates (query : List Char) (chunks : List (List Char)) (mp : Nat) :
    List (Nat × Nat × List Char) :=
  let sorted := rankedCandidates query chunks
  sorted.take (min (mp * 2) sorted.length)

/-- `f"[{i+1}] {chunk}"` — the label uses the chunk's original
enumeration index `i`, not its position in the candidate list. -/
def labelChunk (i : Nat) (c : List Char) : List Char :=
  ('[' :: (toString (i + 1)).data) ++ (']' :: ' ' :: c)

/-- `chunks_with_index = [f"[{i+1}] {chunk}" for _, i, chunk in top_chunks]`. -/
def candidateLabels (top : List (Nat × Nat × List Char)) : List (List Char) :=
  top.map (fun t => labelChunk t.2.1 t.2.2)

/-- `re.sub(r'^\[\d+\]\s*', '', s)`: remove a leading bracketed index. -/
def stripIndexLabel (s : List Char) : List Char :=
  match s with
  | '[' :: rest =>
    if (rest.takeWhile Char.isDigit).isEmpty then s
    else
      match rest.dropWhile Char.isDigit with
      | ']' :: rest3 => rest3.dropWhile Char.isWhitespace
      | _ => s
  | _ => s

/-- Events at the upstream boundary of one retrieval request:
the ChromaDB similarity query, an actual LLM network request
(`llm.invoke`), and a `track_api_call` budget check with its outcome. -/
inductive REvent where
  | chromaQuery : REvent
  | llmNetwork : REvent
  | trackApi (api : String) (allowed : Bool) : REvent
  deriving DecidableEq

/-- Environment of `GroqClient`: API-key/LLM availability, the
cache-key derivation of `chat_completion` (a `groq_<model>_<temp>_...`
string built with `hashlib.md5`, opaque here), the file-name hash used
inside the cache manager, and the network LLM as a prompt-to-text
function. -/
structure GroqEnv where
  hasApiKey : Bool
  llmOk : Bool
  md5Hex : String → String
  cacheKey : String → String
  upstream : String → String

/-- `GroqClient.chat_completion` for a single-prompt request with the
default `stream=False` and the in-repo situation `cache_manager is not
None` (so caching is active): consult the response cache, then the
budget gate, and only then the network; a successful response is stored
back with the default TTL.  The response dict is modelled by its only
consumed field, the message content. -/
def chatCompletion (env : GroqEnv) (s : CMState String) (now : Int)
    (prompt : String) : Except String String × CMState String × List REvent :=
  if env.hasApiKey = false then
    (Except.error "API key not configured. Please set GROQ_API_KEY environment variable.", s, [])
  else if env.llmOk = false then
    (Except.error "LLM not initialized properly. Check logs for details.", s, [])
  else
    let key := env.cacheKey prompt
    let g := cmGet env.md5Hex s now key
    match g.1 with
    | some cached => (Except.ok cached, g.2, [])
    | none =>
      let tr := trackApiCall g.2 now "groq"
      if tr.1 = false then
        (Except.error "Daily rate limit for Groq API exceeded. Try again tomorrow.", tr.2,
          [REvent.trackApi "groq" false])
      else
        let content := env.upstream prompt
        let s2 := cmSet env.md5Hex tr.2 now key content none
        (Except.ok content, s2, [REvent.trackApi "groq" true, REvent.llmNetwork])

/-- `GroqClient.generate_text`: unwrap the completion, prefixing
errors with `"Error: "`. -/
def generateText (env : GroqEnv) (s : CMState String) (now : Int)
    (prompt : String) : String × CMState String × List REvent :=
  match chatCompletion env s now prompt with
  | (Except.error e, s2, t) => ("Error: " ++ e, s2, t)
  | (Except.ok c, s2, t) => (c, s2, t)

/-- The error text `generate_text` produces when `track_api_call`
denies the Groq budget. -/
def rateLimitErrText : String :=
  "Error: Daily rate limit for Groq API exceeded. Try again tomorrow."

/-- A passage as returned by `_extract_relevant_passages`.  The constant
book metadata fields (`book_id`, `book_title`, `book_author`) are
attached to every passage alike and are omitted; `similarity` is the
`similarity_score` field present only on ChromaDB-scored passages. -/
structure Passage where
  text : List Char
  relevance : String
  similarity : Option ℚ
  deriving DecidableEq

/-- One object of a parsed JSON list from an LLM response:
an optional `"passage_number"`, a `"text"` and a `"relevance"` field. -/
structure PJson where
  passageNumber : Option Int
  text : List Char
  relevance : String

/-- Environment of one `_extract_relevant_passages` invocation:
whether the book id resolves to a file, the parsed query-specific cache
file if it exists, the ChromaDB collection behaviour (`none`: no
collection; `some none`: `collection.query` raises; `some (some rs)`:
it returns documents with distances), whether reading the book file
succeeds, the file content, book metadata, the JSON-extraction step
(`re.search` + `json.loads`) over LLM text, and the Groq client
environment. -/
structure RagEnv where
  bookFound : Bool
  passageCache : Option (List Passage)
  chroma : Option (Option (List (List Char × ℚ)))
  readOk : Bool
  content : List Char
  title : String
  author : String
  parse : String → Option (List PJson)
  groq : GroqEnv

/-- `f"Semantic similarity: {similarity:.4f}"` (the fixed-point
rendering of the score is abstracted by `toString`). -/
def semanticRelevance (sim : ℚ) : String :=
  "Semantic similarity: " ++ toString sim

/-- The approach-1 prompt (small books): book content up to 50000
characters is inlined.  `\x7bmax_passages\x7d` is literal text in the
source: only the first of the adjacent string literals carries the
`f`-prefix, so that placeholder is never interpolated. -/
def promptA (title author : String) (query content : List Char) : String :=
  "You are helping to find passages from \x27" ++ title ++ "\x27 by " ++ author ++
  " that are relevant to the query: \x27" ++ String.mk query ++ "\x27\n\n" ++
  "Book content is provided below. Identify the \x7bmax_passages\x7d most relevant passages " ++
  "and return them in JSON format with the following structure:\n" ++
  "[\n" ++
  "  \x7b\n" ++
  "    \"text\": \"The passage text...\",\n" ++
  "    \"relevance\": \"Brief explanation of how this passage relates to the query\"\n" ++
  "  \x7d,\n" ++
  "  ...\n" ++
  "]\n\n" ++
  "Book Content:\n" ++ String.mk (content.take 50000)

/-- The approach-2 re-ranking prompt over the labelled candidates
(again with a literal, uninterpolated `\x7bmax_passages\x7d`). -/
def promptB (title author : String) (query chunksText : List Char) : String :=
  "You are helping to find passages from \x27" ++ title ++ "\x27 by " ++ author ++
  " that are relevant to the query: \x27" ++ String.mk query ++ "\x27\n\n" ++
  "Below are some candidate passages. Rank the top \x7bmax_passages\x7d most relevant passages " ++
  "and return them in JSON format with the following structure:\n" ++
  "[\n" ++
  "  \x7b\n" ++
  "    \"passage_number\": 1,  // The index number in brackets\n" ++
  "    \"text\": \"The passage text...\",\n" ++
  "    \"relevance\": \"Brief explanation of how this passage relates to the query\"\n" ++
  "  \x7d,\n" ++
  "  ...\n" ++
  "]\n\n" ++
  "Candidate Passages:\n" ++ String.mk chunksText

/-- Approach 1 (`len(chunks) < 50`): one LLM request over the inlined
book content; on a parsable response the passage dicts (with book
metadata added) are returned truncated to `max_passages`, otherwise
control falls through to approach 2. -/
def approach1 (env : RagEnv) (s : CMState String) (now : Int) (query : List Char)
    (mp : Nat) : Option (List Passage) × CMState String × List REvent :=
  let g := generateText env.groq s now (promptA env.title env.author query env.content)
  match env.parse g.1 with
  | some pjs =>
    (some ((pjs.map (fun j => ⟨j.text, j.relevance, none⟩)).take mp), g.2.1, g.2.2)
  | none => (none, g.2.1, g.2.2)

/-- The deterministic fallback after an unparseable re-ranking
response: the top lexical candidates verbatim, with the generic note. -/
def approach2Fallback (top : List (Nat × Nat × List Char)) (mp : Nat) : List Passage :=
  (top.take mp).map (fun t => ⟨t.2.2, "Matched query keywords", none⟩)

/-- Approach 2: lexical scoring and ranking, one LLM re-ranking request
over the labelled top candidates, mapping of returned 1-based
`passage_number`s back onto the candidate list (positions outside the
list are dropped), and the deterministic fallback on parse failure. -/
def approach2 (env : RagEnv) (s : CMState String) (now : Int) (query : List Char)
    (chunks : List (List Char)) (mp : Nat) :
    List Passage × CMState String × List REvent :=
  let top := topCandidates query chunks mp
  let labels := candidateLabels top
  let g := generateText env.groq s now (promptB env.title env.author query (joinSep labels))
  match env.parse g.1 with
  | some ranked =>
    let passages := (ranked.take mp).filterMap (fun r =>
      match r.passageNumber with
      | some n =>
        if 0 ≤ n - 1 then
          match labels.get? (n - 1).toNat with
          | some lc => some ⟨stripIndexLabel lc, r.relevance, none⟩
          | none => none
        else none
      | none => none)
    (passages, g.2.1, g.2.2)
  | none => (approach2Fallback top mp, g.2.1, g.2.2)

/-- `RAGSystem._extract_relevant_passages`: cache check, ChromaDB tier
(similarity converted as `1 - min(distance, 1)`), then the
chunking/lexical/LLM fallback tiers.  Writes of the query-specific
cache file are not modelled (no claim depends on them); the second
cache-file check of the source re-reads the same, still absent file.
Returns the passages, the cache-manager state, and the upstream trace. -/
def extractRelevantPassages (env : RagEnv) (s : CMState String) (now : Int)
    (query : List Char) (mp : Nat) : List Passage × CMState String × List REvent :=
  if env.bookFound = false then ([], s, [])
  else
    match env.passageCache with
    | some ps => (ps, s, [])
    | none =>
      let chromaStep : Option (List Passage) × List REvent :=
        match env.chroma with
        | none => (none, [])
        | some none => (none, [REvent.chromaQuery])
        | some (some rs) =>
          if rs.length > 0 then
            (some (rs.map (fun r =>
              ⟨r.1, semanticRelevance (1 - min r.2 1), some (1 - min r.2 1)⟩)),
              [REvent.chromaQuery])
          else (none, [REvent.chromaQuery])
      match chromaStep.1 with
      | some ps => (ps, s, chromaStep.2)
      | none =>
        if env.readOk = false then ([], s, chromaStep.2)
        else
          let chunks := buildChunks 500 (paragraphs env.content)
          match env.passageCache with
          | some ps => (ps, s, chromaStep.2)
          | none =>
            if chunks.length < 50 then
              match approach1 env s now query mp with
              | (some ps, s1, t1) => (ps, s1, chromaStep.2 ++ t1)
              | (none, s1, t1) =>
                let a2 := approach2 env s1 now query chunks mp
                (a2.1, a2.2.1, chromaStep.2 ++ t1 ++ a2.2.2)
            else
              let a2 := approach2 env s now query chunks mp
              (a2.1, a2.2.1, chromaStep.2 ++ a2.2.2)

/-- An upstream call event (similarity query or LLM network request). -/
def upstreamEvent : REvent → Bool
  | REvent.chromaQuery => true
  | REvent.llmNetwork => true
  | REvent.trackApi _ _ => false

/-- A budget-gate event. -/
def isTrackEvent : REvent → Bool
  | REvent.trackApi _ _ => true
  | _ => false

/-- Every upstream event in the trace is preceded by some
`track_api_call` event — the gating discipline asserted by the spec. -/
def gatedTrace (tr : List REvent) : Prop :=
  ∀ i : Fin tr.length, upstreamEvent (tr.get i) = true →
    ∃ j : Fin tr.length, j.1 < i.1 ∧ isTrackEvent (tr.get j) = true

instance gatedTraceDecidable (tr : List REvent) : Decidable (gatedTrace tr) := by
  unfold gatedTrace
  infer_instance

/-- Worker for `llmGated`: `seen` records whether an allowing
`track_api_call("groq")` has occurred so far. -/
def llmGatedAux : Bool → List REvent → Bool
  | _, [] => true
  | seen, e :: rest =>
    match e with
    | REvent.llmNetwork => seen && llmGatedAux seen rest
    | REvent.trackApi api ok => llmGatedAux (seen || (api == "groq" && ok)) rest
    | REvent.chromaQuery => llmGatedAux seen rest

/-- Every LLM network request in the trace is preceded by an allowing
`track_api_call("groq")`. -/
def llmGated (tr : List REvent) : Bool := llmGatedAux false tr

/-- `cache_key = f"{book_id}_{hash(query)}"` in
`_extract_relevant_passages` — `hash` is Python's built-in string hash,
whose value depends on the per-process hash seed
(`PYTHONHASHSEED` randomisation); one process run corresponds to one
hash function `pyHash`. -/
def cacheKeyFor (pyHash : String → Int) (bookId query : String) : String :=
  bookId ++ "_" ++ toString (pyHash query)

/-- Replace the `enabled` flag of a cache-manager state (used to compare
the behaviour of a manager constructed with caching disabled against the
same manager with caching enabled). -/
def withEnabled {α : Type} (b : Bool) (s : CMState α) : CMState α :=
  { s with enabled := b }

/-- The gate-seen flag after processing a trace: whether an allowing
`track_api_call("groq")` event has occurred. -/
def seenAfter : Bool → List REvent → Bool
  | b, [] => b
  | b, e :: rest =>
    match e with
    | REvent.trackApi api ok => seenAfter (b || (api == "groq" && ok)) rest
    | _ => seenAfter b rest

theorem find?_append_none {β : Type} (p : String × β → Bool) :
    ∀ (l l2 : List (String × β)), l.find? p = none →
      (l ++ l2).find? p = l2.find? p := by
  intro l
  induction l with
  | nil => intro l2 _; rfl
  | cons e l ih =>
    intro l2 h
    cases he : p e with
    | true => rw [List.find?_cons_of_pos l he] at h; exact absurd h (by simp)
    | false =>
      rw [List.find?_cons_of_neg l (by simp [he])] at h
      rw [List.cons_append, List.find?_cons_of_neg (l ++ l2) (by simp [he])]
      exact ih l2 h

theorem setA_cons_of_ne {β : Type} (e : String × β) (l : List (String × β))
    (k : String) (v : β) (he : (e.1 == k) = false) :
    setA (e :: l) k v = e :: setA l k v := by
  have hfind : (e :: l).find? (fun x => x.1 == k) = l.find? (fun x => x.1 == k) :=
    List.find?_cons_of_neg l (by simp [he])
  have hmap : (e :: l).map (fun x => if x.1 == k then (k, v) else x) =
      e :: l.map (fun x => if x.1 == k then (k, v) else x) := by
    simp only [List.map_cons, he, Bool.false_eq_true, if_false]
  unfold setA
  rw [hfind]
  by_cases h2 : (l.find? (fun x => x.1 == k)).isSome
  · rw [if_pos h2, if_pos h2, hmap]
  · rw [if_neg h2, if_neg h2, List.cons_append]

theorem lookupA_setA_self {β : Type} (l : List (String × β)) (k : String) (v : β) :
    lookupA (setA l k v) k = some v := by
  induction l with
  | nil => simp [setA, lookupA, List.find?]
  | cons e l ih =>
    cases he : (e.1 == k) with
    | true =>
      have h1 : ((e :: l).find? (fun x => x.1 == k)).isSome = true := by
        rw [List.find?_cons_of_pos l he]; rfl
      have hmap : (e :: l).map (fun x => if x.1 == k then (k, v) else x) =
          (k, v) :: l.map (fun x => if x.1 == k then (k, v) else x) := by
        simp only [List.map_cons, he, if_true]
      rw [setA, if_pos h1, hmap, lookupA, List.find?_cons_of_pos _ (by simp)]
      rfl
    | false =>
      rw [setA_cons_of_ne e l k v he]
      rw [lookupA, List.find?_cons_of_neg _ (by simp [he])]
      rw [lookupA] at ih
      exact ih

theorem trackApiCall_allowed {α : Type} (s : CMState α) (now : Int) (api : String)
    (L c : Nat) (t0 : Int)
    (hL : rateLimitFor s api = some L)
    (hc : lookupA s.apiUsage api = some ⟨c, t0⟩)
    (hw : now - t0 ≤ 86400)
    (hlt : c < L) :
    trackApiCall s now api =
      (true, { s with apiUsage := setA s.apiUsage api ⟨c + 1, t0⟩,
                      usageFile := some (setA s.apiUsage api ⟨c + 1, t0⟩) }) := by
  simp only [trackApiCall, hc, hL]
  rw [if_neg (by omega : ¬ now - t0 > 86400)]
  simp only [hc]
  rw [if_neg (by omega : ¬ c ≥ L)]

theorem trackApiCall_denied {α : Type} (s : CMState α) (now : Int) (api : String)
    (L c : Nat) (t0 : Int)
    (hL : rateLimitFor s api = some L)
    (hc : lookupA s.apiUsage api = some ⟨c, t0⟩)
    (hw : now - t0 ≤ 86400)
    (hge : L ≤ c) :
    trackApiCall s now api = (false, s) := by
  simp only [trackApiCall, hc, hL]
  rw [if_neg (by omega : ¬ now - t0 > 86400)]
  simp only [hc]
  rw [if_pos (by omega : c ≥ L)]

theorem trackApiCall_rollover {α : Type} (s : CMState α) (now2 : Int) (api : String)
    (L c : Nat) (t0 : Int)
    (hL : rateLimitFor s api = some L)
    (hc : lookupA s.apiUsage api = some ⟨c, t0⟩)
    (hr : now2 - t0 > 86400)
    (hpos : 1 ≤ L) :
    (trackApiCall s now2 api).1 = true := by
  simp only [trackApiCall, hc, hL]
  rw [if_pos (by omega : now2 - t0 > 86400)]
  rw [lookupA_setA_self]
  dsimp only
  rw [if_neg (by omega : ¬ 0 ≥ L)]

theorem trackN_succ {α : Type} (s : CMState α) (now : Int) (api : String) (n : Nat) :
    trackN s now api (n + 1) =
      ((trackApiCall s now api).1 :: (trackN (trackApiCall s now api).2 now api n).1,
        (trackN (trackApiCall s now api).2 now api n).2) := rfl

theorem trackN_exhaust {α : Type} (api : String) (now t0 : Int) (L : Nat) :
    ∀ (n : Nat) (s : CMState α) (c : Nat),
      rateLimitFor s api = some L →
      lookupA s.apiUsage api = some ⟨c, t0⟩ →
      now - t0 ≤ 86400 → c + n = L →
      (trackN s now api (n + 1)).1 = List.replicate n true ++ [false] ∧
      lookupA (trackN s now api (n + 1)).2.apiUsage api = some ⟨L, t0⟩ ∧
      rateLimitFor (trackN s now api (n + 1)).2 api = some L := by
  intro n
  induction n with
  | zero =>
    intro s c hL hc hw hcL
    have hcl : c = L := by omega
    subst hcl
    have hd := trackApiCall_denied s now api c c t0 hL hc hw (by omega)
    refine ⟨?_, ?_, ?_⟩
    · simp [trackN, hd]
    · show lookupA (trackApiCall s now api).2.apiUsage api = some ⟨c, t0⟩
      rw [hd]
      exact hc
    · show rateLimitFor (trackApiCall s now api).2 api = some c
      rw [hd]
      exact hL
  | succ n ih =>
    intro s c hL hc hw hcL
    have ha := trackApiCall_allowed s now api L c t0 hL hc hw (by omega)
    have hhead : (trackApiCall s now api).1 = true := by rw [ha]
    have hL1 : rateLimitFor (trackApiCall s now api).2 api = some L := by
      rw [ha]; exact hL
    have hc1 : lookupA (trackApiCall s now api).2.apiUsage api = some ⟨c + 1, t0⟩ := by
      rw [ha]; exact lookupA_setA_self s.apiUsage api ⟨c + 1, t0⟩
    obtain ⟨h1, h2, h3⟩ := ih (trackApiCall s now api).2 (c + 1) hL1 hc1 hw (by omega)
    refine ⟨?_, ?_, ?_⟩
    · show (trackApiCall s now api).1 ::
        (trackN (trackApiCall s now api).2 now api (n + 1)).1 =
          List.replicate (n + 1) true ++ [false]
      rw [hhead, h1]
      simp [List.replicate_succ]
    · exact h2
    · exact h3

/-- **C1** (amended).  For every `api_name` with a configured daily limit
`L ≥ 1` (in the source these are exactly `"tavily"` — the search API —
and `"groq"`), starting from a fresh counter: within one 24-hour window
the first `L` calls to `track_api_call` return `True`, the `(L+1)`-th
returns `False`, the denied call does not increment the counter, and
once more than 24 hours have elapsed since the window start the next
call returns `True` again.  (The spec scenario used the name
`"search"`, for which no limit is configured — see the
counterexample.) -/
theorem c1_daily_budget_amended : ∀ (α : Type) (s : CMState α) (api : String)
    (L : Nat) (t0 now now2 : Int),
    rateLimitFor s api = some L → 1 ≤ L →
    lookupA s.apiUsage api = some ⟨0, t0⟩ →
    now - t0 ≤ 86400 → now2 - t0 > 86400 →
    (trackN s now api (L + 1)).1 = List.replicate L true ++ [false] ∧
    lookupA (trackN s now api (L + 1)).2.apiUsage api = some ⟨L, t0⟩ ∧
    (trackApiCall (trackN s now api (L + 1)).2 now2 api).1 = true := by
  intro α s api L t0 now now2 hL hLpos hc hw hr
  obtain ⟨h1, h2, h3⟩ := trackN_exhaust api now t0 L L s 0 hL hc hw (by omega)
  exact ⟨h1, h2, trackApiCall_rollover _ now2 api L L t0 h3 h2 hr hLpos⟩

/-- **C1** counterexample.  In the source the configurable limits are
`TAVILY_RATE_LIMIT_PER_DAY` and `GROQ_RATE_LIMIT_PER_DAY`; no limit can
be configured for the name `"search"`, so `track_api_call("search")` is
always allowed: three consecutive calls on a fresh manager (both
configured limits set to 2) return `True, True, True`, not
`True, True, False` as the claim's scenario states. -/
theorem c1_scenario_counterexample :
    (trackN (cmInit 0 true 3600 2 2 [] none : CMState Unit) 0 "search" 3).1 =
      [true, true, true] ∧
    (trackN (cmInit 0 true 3600 2 2 [] none : CMState Unit) 0 "search" 3).1 ≠
      [true, true, false] :=
  ⟨by decide, by decide⟩

/-- **C1** witness: the amended budget property evaluated on a fresh
manager with `TAVILY_RATE_LIMIT_PER_DAY = 2` at time 0, with the
rollover call at time 86401. -/
theorem c1_witness :
    (trackN (cmInit 0 true 3600 2 100 [] none : CMState Unit) 0 "tavily" (2 + 1)).1 =
      List.replicate 2 true ++ [false] ∧
    lookupA (trackN (cmInit 0 true 3600 2 100 [] none : CMState Unit) 0 "tavily"
      (2 + 1)).2.apiUsage "tavily" = some ⟨2, 0⟩ ∧
    (trackApiCall (trackN (cmInit 0 true 3600 2 100 [] none : CMState Unit) 0 "tavily"
      (2 + 1)).2 86401 "tavily").1 = true :=
  c1_daily_budget_amended Unit (cmInit 0 true 3600 2 100 [] none) "tavily" 2 0 0 86401
    (by decide) (by decide) (by decide) (by decide) (by decide)

theorem cmSet_enabled_some {α : Type} (md5Hex : String → String) (s : CMState α)
    (now : Int) (k : String) (v : α) (T : Int)
    (hen : s.enabled = true) (hT : T ≠ 0) :
    cmSet md5Hex s now k v (some T) =
      { s with entries := setA s.entries (md5Hex k) ⟨v, now, now + T⟩ } := by
  simp only [cmSet, hen, Bool.true_eq_false, if_false]
  rw [if_neg hT]

theorem cmSet_enabled_zero {α : Type} (md5Hex : String → String) (s : CMState α)
    (now : Int) (k : String) (v : α)
    (hen : s.enabled = true) :
    cmSet md5Hex s now k v (some 0) =
      { s with entries := setA s.entries (md5Hex k) ⟨v, now, now + s.cacheExpiry⟩ } := by
  simp only [cmSet, hen, Bool.true_eq_false, if_false]
  simp

theorem cmGet_after_setA {α : Type} (md5Hex : String → String) (s : CMState α)
    (k : String) (v : α) (ca ea tn : Int)
    (hen : s.enabled = true) :
    (cmGet md5Hex { s with entries := setA s.entries (md5Hex k) ⟨v, ca, ea⟩ } tn k).1 =
      if ea < tn then none else some v := by
  simp only [cmGet, hen, Bool.true_eq_false, if_false]
  rw [lookupA_setA_self]
  dsimp only
  by_cases h : ea < tn
  · rw [if_pos h, if_pos h]
  · rw [if_neg h, if_neg h]

/-- **C4** (amended).  For every key `k`, value `v` and TTL `T ≠ 0`,
`get(k)` after `set(k, v, ttl=T)` returns `v` while
`now <= created_at + T` and returns absent once `now > created_at + T`
(the source's expiry check `expires_at < time.time()` keeps the entry at
the exact boundary instant); and because `set` computes
`ttl = ttl or self.cache_expiry` (Python truthiness), `ttl=0` falls
back to the default expiry, so `set("x", v, ttl=0)` followed by an
immediate `get("x")` returns `v`, not absent. -/
theorem c4_ttl_expiry_amended : ∀ (α : Type) (md5Hex : String → String) (s : CMState α)
    (k : String) (v : α) (T now tn : Int),
    s.enabled = true → 0 ≤ s.cacheExpiry → T ≠ 0 →
    ((tn ≤ now + T → (cmGet md5Hex (cmSet md5Hex s now k v (some T)) tn k).1 = some v) ∧
     (now + T < tn → (cmGet md5Hex (cmSet md5Hex s now k v (some T)) tn k).1 = none) ∧
     (cmGet md5Hex (cmSet md5Hex s now k v (some 0)) now k).1 = some v) := by
  intro α md5Hex s k v T now tn hen hce hT
  rw [cmSet_enabled_some md5Hex s now k v T hen hT, cmSet_enabled_zero md5Hex s now k v hen]
  rw [cmGet_after_setA md5Hex s k v now (now + T) tn hen,
      cmGet_after_setA md5Hex s k v now (now + s.cacheExpiry) now hen]
  refine ⟨?_, ?_, ?_⟩
  · intro h
    rw [if_neg (by omega)]
  · intro h
    rw [if_pos h]
  · rw [if_neg (by omega)]

/-- **C4** counterexample.  On a fresh enabled manager with default TTL
3600: `set("x", "a1", ttl=0)` followed by an immediate `get("x")`
returns the value (the claim says absent), because `ttl or default`
treats `0` as falsy; and `set("y", "vv", ttl=5)` at time 0 followed by
`get("y")` at time 5 (= `created_at + T` exactly) also returns the
value (the claim says absent once `now >= created_at + T`). -/
theorem c4_counterexample :
    (cmGet (fun x => x) (cmSet (fun x => x)
        (cmInit 0 true 3600 50 100 [] none : CMState String) 0 "x" "a1" (some 0)) 0 "x").1 =
      some "a1" ∧
    (cmGet (fun x => x) (cmSet (fun x => x)
        (cmInit 0 true 3600 50 100 [] none : CMState String) 0 "x" "a1" (some 0)) 0 "x").1 ≠
      none ∧
    (cmGet (fun x => x) (cmSet (fun x => x)
        (cmInit 0 true 3600 50 100 [] none : CMState String) 0 "y" "vv" (some 5)) 5 "y").1 =
      some "vv" :=
  ⟨by decide, by decide, by decide⟩

/-- **C4** witness: the amended TTL property evaluated on a fresh
enabled manager: `set("k", "v", ttl=5)` at time 0, `get("k")` at
time 3 returns the value. -/
theorem c4_witness :
    (cmGet (fun x => x) (cmSet (fun x => x)
        (cmInit 0 true 3600 50 100 [] none : CMState String) 0 "k" "v" (some 5)) 3 "k").1 =
      some "v" :=
  (c4_ttl_expiry_amended String (fun x => x) (cmInit 0 true 3600 50 100 [] none)
      "k" "v" 5 0 3 (by decide) (by decide) (by decide)).1 (by decide)

/-- **C7**: the code deletes the persisted counters.  On a fresh manager,
one allowed `track_api_call("groq")` persists the usage dict to
`api_usage.json`; `clear()` with no key then unlinks every `*.json`
file in the cache directory — `api_usage.json` matches the glob — so
the usage file is gone and a manager initialised afterwards (a process
restart at time 1) starts from a reset budget (`groq` count 0), contrary
to the claim that no operation ever deletes the persisted counters. -/
theorem c7_clear_deletes_usage_file :
    ((trackApiCall (cmInit 0 true 3600 50 100 [] none : CMState Unit) 0 "groq").2.usageFile =
      some [("tavily", ⟨0, 0⟩), ("groq", ⟨1, 0⟩)]) ∧
    ((cmClear (fun x => x)
        (trackApiCall (cmInit 0 true 3600 50 100 [] none : CMState Unit) 0 "groq").2
        none).usageFile = none) ∧
    (lookupA (cmInit 1 true 3600 50 100
        (cmClear (fun x => x)
          (trackApiCall (cmInit 0 true 3600 50 100 [] none : CMState Unit) 0 "groq").2
          none).entries
        (cmClear (fun x => x)
          (trackApiCall (cmInit 0 true 3600 50 100 [] none : CMState Unit) 0 "groq").2
          none).usageFile : CMState Unit).apiUsage "groq" = some ⟨0, 1⟩) :=
  ⟨by decide, by decide, by decide⟩

/-- **C9**: the retrieval cache key `f"{book_id}_{hash(query)}"` is built
from Python's process-seeded built-in `hash`, so two process runs (two
hash functions) compute different keys for the same
`(document_id, query)` pair — evaluated here at the failing input
`("intelligent_investor", "value investing")` with the two runs' hash
functions mapping the query to 0 and 1 respectively. -/
theorem c9_cache_key_process_dependent :
    cacheKeyFor (fun _ => 0) "intelligent_investor" "value investing" =
      "intelligent_investor_0" ∧
    cacheKeyFor (fun _ => 1) "intelligent_investor" "value investing" =
      "intelligent_investor_1" ∧
    cacheKeyFor (fun _ => 0) "intelligent_investor" "value investing" ≠
      cacheKeyFor (fun _ => 1) "intelligent_investor" "value investing" :=
  ⟨by decide, by decide, by decide⟩

theorem trackApiCall_ignores_enabled {α : Type} (b : Bool) (s : CMState α)
    (now : Int) (api : String) :
    trackApiCall (withEnabled b s) now api =
      ((trackApiCall s now api).1, withEnabled b (trackApiCall s now api).2) := by
  obtain ⟨en, ce, tl, gl, ent, uf, au⟩ := s
  simp only [trackApiCall, withEnabled, rateLimitFor]
  repeat' (first | rfl | split)

/-- **C10**.  For a cache manager with caching disabled: `get` returns
absent for every key and leaves the state (including the stored files)
untouched, `set` performs no write, and `track_api_call` returns the
same answer and produces the same counter/usage-file state as the same
manager with caching enabled — the budget gate ignores the `enabled`
flag entirely. -/
theorem c10_disabled_caching : ∀ (α : Type) (md5Hex : String → String)
    (s : CMState α) (now : Int) (k : String) (v : α) (ttl : Option Int) (api : String),
    (cmGet md5Hex (withEnabled false s) now k = (none, withEnabled false s)) ∧
    (cmSet md5Hex (withEnabled false s) now k v ttl = withEnabled false s) ∧
    ((trackApiCall (withEnabled false s) now api).1 = (trackApiCall s now api).1) ∧
    ((trackApiCall (withEnabled false s) now api).2 =
      withEnabled false (trackApiCall s now api).2) := by
  intro α md5Hex s now k v ttl api
  refine ⟨?_, ?_, ?_, ?_⟩
  · simp [cmGet, withEnabled]
  · simp [cmSet, withEnabled]
  · rw [trackApiCall_ignores_enabled]
  · rw [trackApiCall_ignores_enabled]

theorem ne_nil_of_isEmpty_false {γ : Type} (l : List γ) (h : ¬ l.isEmpty = true) :
    l ≠ [] := by
  cases l with
  | nil => simp at h
  | cons a t => simp

theorem isEmpty_false_of_ne_nil {γ : Type} (l : List γ) (h : l ≠ []) :
    l.isEmpty = false := by
  cases l with
  | nil => exact absurd rfl h
  | cons a t => rfl

theorem buildChunksAux_spec (M : Nat) :
    ∀ (ps : List (List Char)) (cur c : List Char),
      c ∈ buildChunksAux M cur ps →
      c ≠ [] ∧ (c.length ≤ M + 2 ∨ c ∈ ps ∨ c = cur) := by
  intro ps
  induction ps with
  | nil =>
    intro cur c hc
    cases hcur : cur.isEmpty with
    | true => simp [buildChunksAux, hcur] at hc
    | false =>
      simp [buildChunksAux, hcur] at hc
      refine ⟨?_, Or.inr (Or.inr hc)⟩
      rw [hc]
      exact ne_nil_of_isEmpty_false cur (by simp [hcur])
  | cons p ps ih =>
    intro cur c hc
    rw [buildChunksAux] at hc
    by_cases hle : cur.length + p.length ≤ M
    · rw [if_pos hle] at hc
      obtain ⟨hne, hdis⟩ := ih _ c hc
      refine ⟨hne, ?_⟩
      rcases hdis with h | h | h
      · exact Or.inl h
      · exact Or.inr (Or.inl (List.mem_cons_of_mem _ h))
      · by_cases hcur : cur.isEmpty = true
        · rw [if_pos hcur] at h
          exact Or.inr (Or.inl (h ▸ List.mem_cons_self p ps))
        · rw [if_neg hcur] at h
          subst h
          refine Or.inl ?_
          have h2 : parSep.length = 2 := rfl
          simp only [List.length_append, h2]
          omega
    · rw [if_neg hle] at hc
      by_cases hcur : cur.isEmpty = true
      · rw [if_pos hcur] at hc
        obtain ⟨hne, hdis⟩ := ih p c hc
        refine ⟨hne, ?_⟩
        rcases hdis with h | h | h
        · exact Or.inl h
        · exact Or.inr (Or.inl (List.mem_cons_of_mem _ h))
        · exact Or.inr (Or.inl (h ▸ List.mem_cons_self p ps))
      · rw [if_neg hcur] at hc
        rcases List.mem_cons.mp hc with h | h
        · subst h
          exact ⟨ne_nil_of_isEmpty_false c hcur, Or.inr (Or.inr rfl)⟩
        · obtain ⟨hne, hdis⟩ := ih p c h
          refine ⟨hne, ?_⟩
          rcases hdis with h2 | h2 | h2
          · exact Or.inl h2
          · exact Or.inr (Or.inl (List.mem_cons_of_mem _ h2))
          · exact Or.inr (Or.inl (h2 ▸ List.mem_cons_self p ps))

theorem joinSep_cons₂ (a b : List Char) (t : List (List Char)) :
    joinSep (a :: b :: t) = a ++ parSep ++ joinSep (b :: t) := rfl

theorem joinSep_ne_nil : ∀ (seg : List (List Char)), seg ≠ [] →
    (∀ p ∈ seg, p ≠ []) → joinSep seg ≠ [] := by
  intro seg
  cases seg with
  | nil => intro h _; exact absurd rfl h
  | cons p rest =>
    intro _ hps
    cases rest with
    | nil => simpa [joinSep] using hps p (by simp)
    | cons q t =>
      intro hc
      have hlen := congrArg List.length hc
      rw [joinSep_cons₂] at hlen
      have h2 : parSep.length = 2 := rfl
      simp only [List.length_append, h2, List.length_nil] at hlen
      omega

theorem joinSep_snoc : ∀ (seg : List (List Char)) (p : List Char), seg ≠ [] →
    joinSep (seg ++ [p]) = joinSep seg ++ parSep ++ p := by
  intro seg
  induction seg with
  | nil => intro p h; exact absurd rfl h
  | cons a rest ih =>
    intro p _
    cases rest with
    | nil => simp [joinSep, List.append_assoc]
    | cons b t =>
      simp only [List.cons_append, joinSep_cons₂]
      have hih := ih p (by simp)
      simp only [List.cons_append] at hih
      rw [hih]
      simp [List.append_assoc]

theorem buildChunksAux_partition (M : Nat) :
    ∀ (ps : List (List Char)), (∀ p ∈ ps, p ≠ []) →
    ∀ (seg : List (List Char)), (∀ p ∈ seg, p ≠ []) →
    ∃ segs : List (List (List Char)),
      segs.join = seg ++ ps ∧ (∀ sg ∈ segs, sg ≠ []) ∧
      buildChunksAux M (joinSep seg) ps = segs.map joinSep := by
  intro ps
  induction ps with
  | nil =>
    intro _ seg hseg
    by_cases hse : seg = []
    · subst hse
      exact ⟨[], by simp, by simp, by simp [joinSep, buildChunksAux]⟩
    · refine ⟨[seg], by simp, by simpa using hse, ?_⟩
      have hne := joinSep_ne_nil seg hse hseg
      simp [buildChunksAux, isEmpty_false_of_ne_nil _ hne]
  | cons p ps ih =>
    intro hps seg hseg
    have hp : p ≠ [] := hps p (List.mem_cons_self p ps)
    have hps2 : ∀ q ∈ ps, q ≠ [] := fun q hq => hps q (List.mem_cons_of_mem _ hq)
    rw [buildChunksAux]
    by_cases hse : seg = []
    · subst hse
      obtain ⟨segs, h1, h2, h3⟩ := ih hps2 [p] (by simpa using hp)
      by_cases hle : (joinSep ([] : List (List Char))).length + p.length ≤ M
      · refine ⟨segs, by simpa using h1, h2, ?_⟩
        rw [if_pos hle]
        have : joinSep ([] : List (List Char)) = [] := rfl
        rw [this]
        simpa [joinSep] using h3
      · refine ⟨segs, by simpa using h1, h2, ?_⟩
        rw [if_neg hle]
        have : joinSep ([] : List (List Char)) = [] := rfl
        rw [this]
        simpa [joinSep] using h3
    · have hcur : joinSep seg ≠ [] := joinSep_ne_nil seg hse hseg
      by_cases hle : (joinSep seg).length + p.length ≤ M
      · obtain ⟨segs, h1, h2, h3⟩ := ih hps2 (seg ++ [p]) (by
          intro q hq
          rcases List.mem_append.mp hq with h | h
          · exact hseg q h
          · simpa using (by simpa using h : q = p) ▸ hp)
        refine ⟨segs, by simpa [List.append_assoc] using h1, h2, ?_⟩
        rw [if_pos hle, if_neg (by simp [isEmpty_false_of_ne_nil _ hcur])]
        rw [← joinSep_snoc seg p hse]
        exact h3
      · obtain ⟨segs, h1, h2, h3⟩ := ih hps2 [p] (by simpa using hp)
        refine ⟨seg :: segs, ?_, ?_, ?_⟩
        · simp [h1]
        · intro sg hsg
          rcases List.mem_cons.mp hsg with h | h
          · exact h ▸ hse
          · exact h2 sg h
        · rw [if_neg hle, if_neg (by simp [isEmpty_false_of_ne_nil _ hcur])]
          simp only [List.map_cons]
          rw [← h3]
          simp [joinSep]

theorem paragraphs_ne_nil (content : List Char) :
    ∀ p ∈ paragraphs content, p ≠ [] := by
  intro p hp
  have h := List.of_mem_filter hp
  exact ne_nil_of_isEmpty_false p (by simpa using h)

/-- **C5** (amended).  For every document content, the fallback chunking
(`max_chunk_length = 500`; `_process_books` is the same loop with 1000)
produces chunks that are never empty and keep the paragraphs in source
order (the chunk list is the image under `"\n\n".join` of a partition of
the paragraph list into consecutive non-empty runs); a chunk's length is
bounded by `max_chunk_length + 2` unless the chunk is a single source
paragraph (a paragraph longer than the bound is emitted unsplit, and the
two-character `"\n\n"` joiner is not counted by the merge test, so the
claimed bound `max_chunk_length` itself does not hold — see the
counterexample). -/
theorem c5_chunking_amended : ∀ (content : List Char),
    (∀ c ∈ buildChunks 500 (paragraphs content),
       c ≠ [] ∧ (c.length ≤ 502 ∨ c ∈ paragraphs content)) ∧
    (∃ segs : List (List (List Char)),
       segs.join = paragraphs content ∧ (∀ sg ∈ segs, sg ≠ []) ∧
       buildChunks 500 (paragraphs content) = segs.map joinSep) := by
  intro content
  constructor
  · intro c hc
    obtain ⟨hne, hdis⟩ := buildChunksAux_spec 500 (paragraphs content) [] c hc
    refine ⟨hne, ?_⟩
    rcases hdis with h | h | h
    · exact Or.inl h
    · exact Or.inr h
    · exact absurd h hne
  · obtain ⟨segs, h1, h2, h3⟩ :=
      buildChunksAux_partition 500 (paragraphs content) (paragraphs_ne_nil content)
        [] (by simp)
    exact ⟨segs, by simpa using h1, h2, by simpa [buildChunks, joinSep] using h3⟩

set_option maxRecDepth 40000 in
/-- **C5** counterexample.  Two 250-character paragraphs pass the merge
test (`250 + 250 <= 500`) but the two-character `"\n\n"` joiner makes
the merged chunk 502 characters long, exceeding the configured maximum
of 500. -/
theorem c5_counterexample :
    ∃ c ∈ buildChunks 500 (paragraphs
      (List.replicate 250 'a' ++ '\n' :: '\n' :: List.replicate 250 'b')),
      500 < c.length := by
  decide

/-- **C5** witness: the amended chunk property evaluated on the
two-paragraph document `"aa\n\nbb"`, whose single chunk is the merged
`"aa\n\nbb"`. -/
theorem c5_witness :
    ['a', 'a', '\n', '\n', 'b', 'b'] ≠ ([] : List Char) ∧
    (List.length ['a', 'a', '\n', '\n', 'b', 'b'] ≤ 502 ∨
      ['a', 'a', '\n', '\n', 'b', 'b'] ∈ paragraphs "aa\n\nbb".data) :=
  (c5_chunking_amended "aa\n\nbb".data).1 ['a', 'a', '\n', '\n', 'b', 'b'] (by decide)

theorem scoredChunksAux_mem (kws : List (List Char)) :
    ∀ (chunks : List (List Char)) (st i : Nat) (h : i < chunks.length),
      (chunkScore kws (chunks.get ⟨i, h⟩), st + i, chunks.get ⟨i, h⟩) ∈
        scoredChunksAux kws st chunks := by
  intro chunks
  induction chunks with
  | nil => intro st i h; simp at h
  | cons c cs ih =>
    intro st i h
    cases i with
    | zero => simp [scoredChunksAux]
    | succ j =>
      have hj : j < cs.length := by simpa using Nat.lt_of_succ_lt_succ h
      have hmem := ih (st + 1) j hj
      have harith : st + 1 + j = st + (j + 1) := by omega
      rw [harith] at hmem
      rw [show scoredChunksAux kws st (c :: cs) =
        (chunkScore kws c, st, c) :: scoredChunksAux kws (st + 1) cs from rfl]
      refine List.mem_cons_of_mem _ ?_
      simpa using hmem

theorem mem_scoredChunks (kws : List (List Char)) (chunks : List (List Char))
    (i : Fin chunks.length) :
    (chunkScore kws (chunks.get i), i.1, chunks.get i) ∈ scoredChunks kws chunks := by
  have h := scoredChunksAux_mem kws chunks 0 i.1 i.2
  simpa [scoredChunks] using h

theorem chunkScore_pair (kws : List (List Char)) (a b chunk : List Char)
    (hnd : kws.Nodup) (hfs : kws.toFinset = {a, b}) (hab : a ≠ b) :
    chunkScore kws chunk =
      (if a <:+: lowerL chunk then 1 else 0) +
        (if b <:+: lowerL chunk then 1 else 0) := by
  have hnd2 : ([a, b] : List (List Char)).Nodup := by simp [hab]
  have hfs2 : ([a, b] : List (List Char)).toFinset = {a, b} := by simp
  have hperm := List.perm_of_nodup_nodup_toFinset_eq hnd hnd2 (hfs.trans hfs2.symm)
  unfold chunkScore
  rw [← List.countP_eq_length_filter]
  rw [hperm.countP_eq]
  by_cases h1 : a <:+: lowerL chunk <;> by_cases h2 : b <:+: lowerL chunk <;>
    simp [List.countP_cons, h1, h2]

/-- **C6**.  Lexical fallback ranking is monotonic in term overlap: for a
query whose keyword set is `{a, b}` (`a ≠ b`) and any three chunks — one
containing both terms as substrings of its lowercased text, one
containing exactly one, one containing neither — the sorted candidate
list of the source (`scored_chunks.sort(reverse=True)`) places the
both-terms chunk (score 2) strictly before the one-term chunk (score 1),
which comes strictly before the no-term chunk (score 0). -/
theorem c6_lexical_ranking_monotonic : ∀ (q : List Char) (chunks : List (List Char))
    (a b : List Char) (iB iO iN : Fin chunks.length),
    (queryKeywords q).toFinset = {a, b} → a ≠ b →
    a <:+: lowerL (chunks.get iB) → b <:+: lowerL (chunks.get iB) →
    ((a <:+: lowerL (chunks.get iO) ∧ ¬ b <:+: lowerL (chunks.get iO)) ∨
     (b <:+: lowerL (chunks.get iO) ∧ ¬ a <:+: lowerL (chunks.get iO))) →
    ¬ a <:+: lowerL (chunks.get iN) → ¬ b <:+: lowerL (chunks.get iN) →
    ∃ pB pO pN : Fin (rankedCandidates q chunks).length,
      pB.1 < pO.1 ∧ pO.1 < pN.1 ∧
      (rankedCandidates q chunks).get pB = (2, iB.1, chunks.get iB) ∧
      (rankedCandidates q chunks).get pO = (1, iO.1, chunks.get iO) ∧
      (rankedCandidates q chunks).get pN = (0, iN.1, chunks.get iN) := by
  intro q chunks a b iB iO iN hfs hab hBa hBb hO hNa hNb
  have hnd : (queryKeywords q).Nodup := List.nodup_dedup _
  have hsB : chunkScore (queryKeywords q) (chunks.get iB) = 2 := by
    rw [chunkScore_pair _ a b _ hnd hfs hab, if_pos hBa, if_pos hBb]
  have hsO : chunkScore (queryKeywords q) (chunks.get iO) = 1 := by
    rcases hO with ⟨h1, h2⟩ | ⟨h1, h2⟩
    · rw [chunkScore_pair _ a b _ hnd hfs hab, if_pos h1, if_neg h2]
    · rw [chunkScore_pair _ a b _ hnd hfs hab, if_neg h2, if_pos h1]
  have hsN : chunkScore (queryKeywords q) (chunks.get iN) = 0 := by
    rw [chunkScore_pair _ a b _ hnd hfs hab, if_neg hNa, if_neg hNb]
  have hperm := List.perm_insertionSort rTup (scoredChunks (queryKeywords q) chunks)
  have hmB : (2, iB.1, chunks.get iB) ∈ rankedCandidates q chunks := by
    rw [rankedCandidates, sortDesc]
    exact hperm.mem_iff.mpr (hsB ▸ mem_scoredChunks (queryKeywords q) chunks iB)
  have hmO : (1, iO.1, chunks.get iO) ∈ rankedCandidates q chunks := by
    rw [rankedCandidates, sortDesc]
    exact hperm.mem_iff.mpr (hsO ▸ mem_scoredChunks (queryKeywords q) chunks iO)
  have hmN : (0, iN.1, chunks.get iN) ∈ rankedCandidates q chunks := by
    rw [rankedCandidates, sortDesc]
    exact hperm.mem_iff.mpr (hsN ▸ mem_scoredChunks (queryKeywords q) chunks iN)
  obtain ⟨pB, hgB⟩ := List.get_of_mem hmB
  obtain ⟨pO, hgO⟩ := List.get_of_mem hmO
  obtain ⟨pN, hgN⟩ := List.get_of_mem hmN
  have hsorted : List.Sorted rTup (rankedCandidates q chunks) := by
    rw [rankedCandidates, sortDesc]
    exact List.sorted_insertionSort rTup _
  have hBO : pB.1 < pO.1 := by
    rcases Nat.lt_trichotomy pB.1 pO.1 with h | h | h
    · exact h
    · exfalso
      have : pB = pO := Fin.ext h
      rw [this, hgO] at hgB
      simp at hgB
    · exfalso
      have hr := hsorted.rel_get_of_lt (show pO < pB from h)
      rw [hgO, hgB] at hr
      unfold rTup at hr
      rcases hr with h2 | ⟨h2, _⟩ <;> omega
  have hON : pO.1 < pN.1 := by
    rcases Nat.lt_trichotomy pO.1 pN.1 with h | h | h
    · exact h
    · exfalso
      have : pO = pN := Fin.ext h
      rw [this, hgN] at hgO
      simp at hgO
    · exfalso
      have hr := hsorted.rel_get_of_lt (show pN < pO from h)
      rw [hgN, hgO] at hr
      unfold rTup at hr
      rcases hr with h2 | ⟨h2, _⟩ <;> omega
  exact ⟨pB, pO, pN, hBO, hON, hgB, hgO, hgN⟩

/-- **C6** witness: the ranking property evaluated on the query
`"alpha beta"` and the chunks `"the alpha and beta mix"`,
`"only alpha here"`, `"nothing to see"`. -/
theorem c6_witness :
    ∃ pB pO pN : Fin (rankedCandidates "alpha beta".data
      ["the alpha and beta mix".data, "only alpha here".data, "nothing to see".data]).length,
      pB.1 < pO.1 ∧ pO.1 < pN.1 ∧
      (rankedCandidates "alpha beta".data
        ["the alpha and beta mix".data, "only alpha here".data, "nothing to see".data]).get pB =
        (2, 0, "the alpha and beta mix".data) ∧
      (rankedCandidates "alpha beta".data
        ["the alpha and beta mix".data, "only alpha here".data, "nothing to see".data]).get pO =
        (1, 1, "only alpha here".data) ∧
      (rankedCandidates "alpha beta".data
        ["the alpha and beta mix".data, "only alpha here".data, "nothing to see".data]).get pN =
        (0, 2, "nothing to see".data) :=
  c6_lexical_ranking_monotonic "alpha beta".data
    ["the alpha and beta mix".data, "only alpha here".data, "nothing to see".data]
    "alpha".data "beta".data ⟨0, by decide⟩ ⟨1, by decide⟩ ⟨2, by decide⟩
    (by decide) (by decide) (by decide) (by decide) (Or.inl ⟨by decide, by decide⟩)
    (by decide) (by decide)

theorem chatCompletion_trace_cases (env : GroqEnv) (s : CMState String) (now : Int)
    (prompt : String) :
    (chatCompletion env s now prompt).2.2 = [] ∨
    (chatCompletion env s now prompt).2.2 = [REvent.trackApi "groq" false] ∨
    (chatCompletion env s now prompt).2.2 =
      [REvent.trackApi "groq" true, REvent.llmNetwork] := by
  unfold chatCompletion
  split
  · exact Or.inl rfl
  split
  · exact Or.inl rfl
  dsimp only
  split
  · exact Or.inl rfl
  split
  · exact Or.inr (Or.inl rfl)
  · exact Or.inr (Or.inr rfl)

theorem chatCompletion_count (env : GroqEnv) (s : CMState String) (now : Int)
    (prompt : String) :
    ((chatCompletion env s now prompt).2.2).count REvent.llmNetwork ≤ 1 ∧
    ((chatCompletion env s now prompt).2.2).count REvent.chromaQuery = 0 := by
  rcases chatCompletion_trace_cases env s now prompt with h | h | h <;> rw [h] <;>
    exact ⟨by decide, by decide⟩

theorem chatCompletion_llmGated (env : GroqEnv) (s : CMState String) (now : Int)
    (prompt : String) :
    ∀ b, llmGatedAux b ((chatCompletion env s now prompt).2.2) = true := by
  intro b
  rcases chatCompletion_trace_cases env s now prompt with h | h | h <;> rw [h] <;>
    simp [llmGatedAux]

theorem generateText_eq (env : GroqEnv) (s : CMState String) (now : Int) (p : String) :
    (generateText env s now p).2.1 = (chatCompletion env s now p).2.1 ∧
    (generateText env s now p).2.2 = (chatCompletion env s now p).2.2 := by
  unfold generateText
  rcases h : chatCompletion env s now p with ⟨r, s2, t⟩
  cases r <;> exact ⟨rfl, rfl⟩

theorem approach1_trace (env : RagEnv) (s : CMState String) (now : Int)
    (query : List Char) (mp : Nat) :
    (approach1 env s now query mp).2.2 =
      (chatCompletion env.groq s now
        (promptA env.title env.author query env.content)).2.2 := by
  unfold approach1
  cases hp : env.parse (generateText env.groq s now
      (promptA env.title env.author query env.content)).1 <;>
    simp only [hp] <;>
    exact (generateText_eq env.groq s now _).2

theorem approach2_trace (env : RagEnv) (s : CMState String) (now : Int)
    (query : List Char) (chunks : List (List Char)) (mp : Nat) :
    (approach2 env s now query chunks mp).2.2 =
      (chatCompletion env.groq s now (promptB env.title env.author query
        (joinSep (candidateLabels (topCandidates query chunks mp))))).2.2 := by
  unfold approach2
  cases hp : env.parse (generateText env.groq s now (promptB env.title env.author query
      (joinSep (candidateLabels (topCandidates query chunks mp))))).1 <;>
    simp only [hp] <;>
    exact (generateText_eq env.groq s now _).2

theorem extract_cache_hit (env : RagEnv) (s : CMState String) (now : Int)
    (query : List Char) (mp : Nat) (ps : List Passage)
    (hpc : env.passageCache = some ps) :
    (extractRelevantPassages env s now query mp).2.2 = [] := by
  unfold extractRelevantPassages
  by_cases hbf : env.bookFound = false
  · rw [if_pos hbf]
  · rw [if_neg hbf]
    simp only [hpc]

theorem extract_trace_decomp : ∀ (env : RagEnv) (s : CMState String) (now : Int)
    (query : List Char) (mp : Nat),
    ∃ tc t1 t2 : List REvent,
      (extractRelevantPassages env s now query mp).2.2 = tc ++ (t1 ++ t2) ∧
      (tc = [] ∨ tc = [REvent.chromaQuery]) ∧
      (t1 = [] ∨ ∃ s1 p1, t1 = (chatCompletion env.groq s1 now p1).2.2) ∧
      (t2 = [] ∨ ∃ s2 p2, t2 = (chatCompletion env.groq s2 now p2).2.2) := by
  intro env s now query mp
  unfold extractRelevantPassages
  by_cases hbf : env.bookFound = false
  · rw [if_pos hbf]
    exact ⟨[], [], [], rfl, Or.inl rfl, Or.inl rfl, Or.inl rfl⟩
  rw [if_neg hbf]
  cases hpc : env.passageCache with
  | some ps => exact ⟨[], [], [], rfl, Or.inl rfl, Or.inl rfl, Or.inl rfl⟩
  | none =>
    dsimp only
    cases hch : env.chroma with
    | none =>
      dsimp only
      by_cases hro : env.readOk = false
      · rw [if_pos hro]
        exact ⟨[], [], [], by simp, Or.inl rfl, Or.inl rfl, Or.inl rfl⟩
      rw [if_neg hro]
      by_cases hchunks : (buildChunks 500 (paragraphs env.content)).length < 50
      · rw [if_pos hchunks]
        rcases ha1 : approach1 env s now query mp with ⟨r1, s1, t1⟩
        have ht1 : t1 = (chatCompletion env.groq s now
            (promptA env.title env.author query env.content)).2.2 := by
          rw [← approach1_trace env s now query mp, ha1]
        cases r1 with
        | some ps =>
          exact ⟨[], t1, [], by simp, Or.inl rfl, Or.inr ⟨s, _, ht1⟩, Or.inl rfl⟩
        | none =>
          refine ⟨[], t1, (approach2 env s1 now query
              (buildChunks 500 (paragraphs env.content)) mp).2.2,
            by simp [List.append_assoc], Or.inl rfl, Or.inr ⟨s, _, ht1⟩, ?_⟩
          exact Or.inr ⟨s1, _, approach2_trace env s1 now query _ mp⟩
      · rw [if_neg hchunks]
        refine ⟨[], [], (approach2 env s now query
            (buildChunks 500 (paragraphs env.content)) mp).2.2, by simp, Or.inl rfl,
          Or.inl rfl, ?_⟩
        exact Or.inr ⟨s, _, approach2_trace env s now query _ mp⟩
    | some o =>
      cases o with
      | none =>
        dsimp only
        by_cases hro : env.readOk = false
        · rw [if_pos hro]
          exact ⟨[REvent.chromaQuery], [], [], by simp, Or.inr rfl, Or.inl rfl, Or.inl rfl⟩
        rw [if_neg hro]
        by_cases hchunks : (buildChunks 500 (paragraphs env.content)).length < 50
        · rw [if_pos hchunks]
          rcases ha1 : approach1 env s now query mp with ⟨r1, s1, t1⟩
          have ht1 : t1 = (chatCompletion env.groq s now
              (promptA env.title env.author query env.content)).2.2 := by
            rw [← approach1_trace env s now query mp, ha1]
          cases r1 with
          | some ps =>
            exact ⟨[REvent.chromaQuery], t1, [], by simp, Or.inr rfl,
              Or.inr ⟨s, _, ht1⟩, Or.inl rfl⟩
          | none =>
            refine ⟨[REvent.chromaQuery], t1, (approach2 env s1 now query
                (buildChunks 500 (paragraphs env.content)) mp).2.2,
              by simp [List.append_assoc], Or.inr rfl, Or.inr ⟨s, _, ht1⟩, ?_⟩
            exact Or.inr ⟨s1, _, approach2_trace env s1 now query _ mp⟩
        · rw [if_neg hchunks]
          refine ⟨[REvent.chromaQuery], [], (approach2 env s now query
              (buildChunks 500 (paragraphs env.content)) mp).2.2, by simp, Or.inr rfl,
            Or.inl rfl, ?_⟩
          exact Or.inr ⟨s, _, approach2_trace env s now query _ mp⟩
      | some rs =>
        dsimp only
        by_cases hlen : rs.length > 0
        · rw [if_pos hlen]
          exact ⟨[REvent.chromaQuery], [], [], by simp, Or.inr rfl, Or.inl rfl, Or.inl rfl⟩
        · rw [if_neg hlen]
          dsimp only
          by_cases hro : env.readOk = false
          · rw [if_pos hro]
            exact ⟨[REvent.chromaQuery], [], [], by simp, Or.inr rfl, Or.inl rfl,
              Or.inl rfl⟩
          rw [if_neg hro]
          by_cases hchunks : (buildChunks 500 (paragraphs env.content)).length < 50
          · rw [if_pos hchunks]
            rcases ha1 : approach1 env s now query mp with ⟨r1, s1, t1⟩
            have ht1 : t1 = (chatCompletion env.groq s now
                (promptA env.title env.author query env.content)).2.2 := by
              rw [← approach1_trace env s now query mp, ha1]
            cases r1 with
            | some ps =>
              exact ⟨[REvent.chromaQuery], t1, [], by simp, Or.inr rfl,
                Or.inr ⟨s, _, ht1⟩, Or.inl rfl⟩
            | none =>
              refine ⟨[REvent.chromaQuery], t1, (approach2 env s1 now query
                  (buildChunks 500 (paragraphs env.content)) mp).2.2,
                by simp [List.append_assoc], Or.inr rfl, Or.inr ⟨s, _, ht1⟩, ?_⟩
              exact Or.inr ⟨s1, _, approach2_trace env s1 now query _ mp⟩
          · rw [if_neg hchunks]
            refine ⟨[REvent.chromaQuery], [], (approach2 env s now query
                (buildChunks 500 (paragraphs env.content)) mp).2.2, by simp, Or.inr rfl,
              Or.inl rfl, ?_⟩
            exact Or.inr ⟨s, _, approach2_trace env s now query _ mp⟩

/-- **C2** (amended).  Per invocation of `_extract_relevant_passages`, at
most one similarity query is issued against the vector store and at most
**two** LLM completion requests reach the network (approach 1 falls
through to approach 2 when its response does not parse, and each
approach issues one `generate_text` call); on a query-specific cache hit
no upstream call of either kind is made. -/
theorem c2_call_bound_amended : ∀ (env : RagEnv) (s : CMState String) (now : Int)
    (query : List Char) (mp : Nat),
    ((extractRelevantPassages env s now query mp).2.2).count REvent.chromaQuery ≤ 1 ∧
    ((extractRelevantPassages env s now query mp).2.2).count REvent.llmNetwork ≤ 2 ∧
    (∀ ps, env.passageCache = some ps →
      (extractRelevantPassages env s now query mp).2.2 = []) := by
  intro env s now query mp
  obtain ⟨tc, t1, t2, heq, htc, ht1, ht2⟩ := extract_trace_decomp env s now query mp
  have htcc : tc.count REvent.chromaQuery ≤ 1 ∧ tc.count REvent.llmNetwork = 0 := by
    rcases htc with h | h <;> subst h <;> exact ⟨by decide, by decide⟩
  have h1c : t1.count REvent.chromaQuery = 0 ∧ t1.count REvent.llmNetwork ≤ 1 := by
    rcases ht1 with h | ⟨s1, p1, h⟩
    · subst h; exact ⟨by decide, by decide⟩
    · subst h
      exact ⟨(chatCompletion_count env.groq s1 now p1).2,
        (chatCompletion_count env.groq s1 now p1).1⟩
  have h2c : t2.count REvent.chromaQuery = 0 ∧ t2.count REvent.llmNetwork ≤ 1 := by
    rcases ht2 with h | ⟨s2, p2, h⟩
    · subst h; exact ⟨by decide, by decide⟩
    · subst h
      exact ⟨(chatCompletion_count env.groq s2 now p2).2,
        (chatCompletion_count env.groq s2 now p2).1⟩
  refine ⟨?_, ?_, fun ps hps => extract_cache_hit env s now query mp ps hps⟩
  · rw [heq]
    simp only [List.count_append]
    omega
  · rw [heq]
    simp only [List.count_append]
    omega

set_option maxRecDepth 200000 in
/-- **C2** counterexample.  A run in which the chunk count is below 50
and both LLM responses are unparseable: approach 1 issues one network
LLM request, its response fails to parse, and approach 2 issues a
second one — two LLM completion requests in a single invocation, where
the claim allows at most one.  (The Groq response cache does not
intervene: the two prompts differ, so the second lookup misses.) -/
theorem c2_counterexample :
    ((extractRelevantPassages
        { bookFound := true, passageCache := none, chroma := none, readOk := true,
          content := "hello world".data, title := "T", author := "A",
          parse := fun _ => none,
          groq := { hasApiKey := true, llmOk := true, md5Hex := fun x => x,
                    cacheKey := fun x => x, upstream := fun _ => "garbage" } }
        (cmInit 0 true 3600 50 100 [] none) 0 "alpha".data 3).2.2).count
      REvent.llmNetwork = 2 ∧
    ¬ (((extractRelevantPassages
        { bookFound := true, passageCache := none, chroma := none, readOk := true,
          content := "hello world".data, title := "T", author := "A",
          parse := fun _ => none,
          groq := { hasApiKey := true, llmOk := true, md5Hex := fun x => x,
                    cacheKey := fun x => x, upstream := fun _ => "garbage" } }
        (cmInit 0 true 3600 50 100 [] none) 0 "alpha".data 3).2.2).count
      REvent.llmNetwork ≤ 1) :=
  ⟨by decide, by decide⟩

/-- **C2** witness: the amended bound evaluated on a cache-hit
environment — the trace is empty, so both counts are 0. -/
theorem c2_witness :
    ((extractRelevantPassages
        { bookFound := true, passageCache := some [], chroma := none, readOk := true,
          content := [], title := "T", author := "A", parse := fun _ => none,
          groq := { hasApiKey := true, llmOk := true, md5Hex := fun x => x,
                    cacheKey := fun x => x, upstream := fun _ => "r" } }
        (cmInit 0 true 3600 50 100 [] none) 0 "q".data 3).2.2).count
      REvent.chromaQuery ≤ 1 ∧
    ((extractRelevantPassages
        { bookFound := true, passageCache := some [], chroma := none, readOk := true,
          content := [], title := "T", author := "A", parse := fun _ => none,
          groq := { hasApiKey := true, llmOk := true, md5Hex := fun x => x,
                    cacheKey := fun x => x, upstream := fun _ => "r" } }
        (cmInit 0 true 3600 50 100 [] none) 0 "q".data 3).2.2).count
      REvent.llmNetwork ≤ 2 ∧
    (extractRelevantPassages
        { bookFound := true, passageCache := some [], chroma := none, readOk := true,
          content := [], title := "T", author := "A", parse := fun _ => none,
          groq := { hasApiKey := true, llmOk := true, md5Hex := fun x => x,
                    cacheKey := fun x => x, upstream := fun _ => "r" } }
        (cmInit 0 true 3600 50 100 [] none) 0 "q".data 3).2.2 = [] := by
  have h := c2_call_bound_amended
    { bookFound := true, passageCache := some [], chroma := none, readOk := true,
      content := [], title := "T", author := "A", parse := fun _ => none,
      groq := { hasApiKey := true, llmOk := true, md5Hex := fun x => x,
                cacheKey := fun x => x, upstream := fun _ => "r" } }
    (cmInit 0 true 3600 50 100 [] none) 0 "q".data 3
  exact ⟨h.1, h.2.1, h.2.2 [] rfl⟩

theorem llmGatedAux_append (t2 : List REvent) :
    ∀ (t1 : List REvent) (b : Bool),
      llmGatedAux b (t1 ++ t2) = (llmGatedAux b t1 && llmGatedAux (seenAfter b t1) t2) := by
  intro t1
  induction t1 with
  | nil => intro b; simp [llmGatedAux, seenAfter]
  | cons e t1 ih =>
    intro b
    cases e with
    | chromaQuery => simp [llmGatedAux, seenAfter, ih]
    | llmNetwork =>
      simp only [List.cons_append, llmGatedAux, seenAfter, ih]
      cases b <;> simp [ih]
    | trackApi api ok => simp [llmGatedAux, seenAfter, ih]

theorem chatCompletion_denied (env : GroqEnv) (s : CMState String) (now : Int)
    (p : String) (cc : Nat) (t0 : Int)
    (hk : env.hasApiKey = true) (hl : env.llmOk = true)
    (hen : s.enabled = true) (hent : s.entries = [])
    (hc : lookupA s.apiUsage "groq" = some ⟨cc, t0⟩)
    (hge : s.groqLimit ≤ cc) (hw : now - t0 ≤ 86400) :
    chatCompletion env s now p =
      (Except.error "Daily rate limit for Groq API exceeded. Try again tomorrow.", s,
        [REvent.trackApi "groq" false]) := by
  have hget : cmGet env.md5Hex s now (env.cacheKey p) = (none, s) := by
    simp [cmGet, hen, hent, lookupA]
  have hL : rateLimitFor s "groq" = some s.groqLimit := rfl
  have hd := trackApiCall_denied s now "groq" s.groqLimit cc t0 hL hc hw hge
  unfold chatCompletion
  rw [if_neg (by simp [hk]), if_neg (by simp [hl])]
  dsimp only
  rw [hget]
  dsimp only
  rw [hd]
  rfl

theorem generateText_denied (env : GroqEnv) (s : CMState String) (now : Int)
    (p : String) (cc : Nat) (t0 : Int)
    (hk : env.hasApiKey = true) (hl : env.llmOk = true)
    (hen : s.enabled = true) (hent : s.entries = [])
    (hc : lookupA s.apiUsage "groq" = some ⟨cc, t0⟩)
    (hge : s.groqLimit ≤ cc) (hw : now - t0 ≤ 86400) :
    generateText env s now p = (rateLimitErrText, s, [REvent.trackApi "groq" false]) := by
  unfold generateText
  rw [chatCompletion_denied env s now p cc t0 hk hl hen hent hc hge hw]
  rfl

theorem approach1_denied (env : RagEnv) (s : CMState String) (now : Int)
    (query : List Char) (mp : Nat) (cc : Nat) (t0 : Int)
    (hparse : ∀ r, env.parse r = none)
    (hk : env.groq.hasApiKey = true) (hl : env.groq.llmOk = true)
    (hen : s.enabled = true) (hent : s.entries = [])
    (hc : lookupA s.apiUsage "groq" = some ⟨cc, t0⟩)
    (hge : s.groqLimit ≤ cc) (hw : now - t0 ≤ 86400) :
    approach1 env s now query mp = (none, s, [REvent.trackApi "groq" false]) := by
  unfold approach1
  dsimp only
  rw [generateText_denied env.groq s now _ cc t0 hk hl hen hent hc hge hw]
  dsimp only
  rw [hparse]

theorem approach2_denied (env : RagEnv) (s : CMState String) (now : Int)
    (query : List Char) (chunks : List (List Char)) (mp : Nat) (cc : Nat) (t0 : Int)
    (hparse : ∀ r, env.parse r = none)
    (hk : env.groq.hasApiKey = true) (hl : env.groq.llmOk = true)
    (hen : s.enabled = true) (hent : s.entries = [])
    (hc : lookupA s.apiUsage "groq" = some ⟨cc, t0⟩)
    (hge : s.groqLimit ≤ cc) (hw : now - t0 ≤ 86400) :
    approach2 env s now query chunks mp =
      (approach2Fallback (topCandidates query chunks mp) mp, s,
        [REvent.trackApi "groq" false]) := by
  unfold approach2
  dsimp only
  rw [generateText_denied env.groq s now _ cc t0 hk hl hen hent hc hge hw]
  dsimp only
  rw [hparse]

/-- **C3** (amended).  Within passage retrieval, every LLM network
request is preceded by an allowing `track_api_call("groq")` (the gate
lives in `chat_completion`, before `llm.invoke`), and when the Groq
budget is exhausted the denied call makes no network request and the
retriever proceeds to the lexical fallback tier without raising.  The
ChromaDB similarity query, however, is **not** gated by any
`track_api_call` — see the counterexample. -/
theorem c3_llm_gating_amended :
    (∀ (env : RagEnv) (s : CMState String) (now : Int) (query : List Char) (mp : Nat),
      llmGated ((extractRelevantPassages env s now query mp).2.2) = true) ∧
    (∀ (env : RagEnv) (s : CMState String) (now : Int) (query : List Char) (mp : Nat)
      (cc : Nat) (t0 : Int),
      env.bookFound = true → env.passageCache = none → env.chroma = none →
      env.readOk = true → (∀ r, env.parse r = none) →
      env.groq.hasApiKey = true → env.groq.llmOk = true →
      s.enabled = true → s.entries = [] →
      lookupA s.apiUsage "groq" = some ⟨cc, t0⟩ → s.groqLimit ≤ cc → now - t0 ≤ 86400 →
      ((extractRelevantPassages env s now query mp).2.2).count REvent.llmNetwork = 0 ∧
      (extractRelevantPassages env s now query mp).1 =
        approach2Fallback
          (topCandidates query (buildChunks 500 (paragraphs env.content)) mp) mp) := by
  constructor
  · intro env s now query mp
    obtain ⟨tc, t1, t2, heq, htc, ht1, ht2⟩ := extract_trace_decomp env s now query mp
    have f1 : ∀ b, llmGatedAux b tc = true := by
      rcases htc with h | h <;> subst h <;> intro b <;> simp [llmGatedAux]
    have f2 : ∀ b, llmGatedAux b t1 = true := by
      rcases ht1 with h | ⟨s1, p1, h⟩
      · subst h; intro b; simp [llmGatedAux]
      · subst h; exact chatCompletion_llmGated env.groq s1 now p1
    have f3 : ∀ b, llmGatedAux b t2 = true := by
      rcases ht2 with h | ⟨s2, p2, h⟩
      · subst h; intro b; simp [llmGatedAux]
      · subst h; exact chatCompletion_llmGated env.groq s2 now p2
    rw [llmGated, heq, llmGatedAux_append, llmGatedAux_append]
    simp [f1, f2, f3]
  · intro env s now query mp cc t0 hbf hpc hch hro hparse hk hl hen hent hc hge hw
    have hmain : extractRelevantPassages env s now query mp =
        (approach2Fallback
          (topCandidates query (buildChunks 500 (paragraphs env.content)) mp) mp, s,
          if (buildChunks 500 (paragraphs env.content)).length < 50 then
            [REvent.trackApi "groq" false, REvent.trackApi "groq" false]
          else [REvent.trackApi "groq" false]) := by
      unfold extractRelevantPassages
      rw [if_neg (by simp [hbf])]
      cases hpc2 : env.passageCache with
      | some ps => rw [hpc] at hpc2; exact absurd hpc2 (by simp)
      | none =>
        dsimp only
        rw [hch]
        dsimp only
        rw [if_neg (by simp [hro])]
        by_cases hchunks : (buildChunks 500 (paragraphs env.content)).length < 50
        · rw [if_pos hchunks]
          rw [approach1_denied env s now query mp cc t0 hparse hk hl hen hent hc hge hw]
          dsimp only
          rw [approach2_denied env s now query _ mp cc t0 hparse hk hl hen hent hc hge hw]
          rw [if_pos hchunks]
          rfl
        · rw [if_neg hchunks]
          rw [approach2_denied env s now query _ mp cc t0 hparse hk hl hen hent hc hge hw]
          rw [if_neg hchunks]
          rfl
    rw [hmain]
    by_cases hchunks : (buildChunks 500 (paragraphs env.content)).length < 50
    · rw [if_pos hchunks]
      exact ⟨rfl, rfl⟩
    · rw [if_neg hchunks]
      exact ⟨rfl, rfl⟩

/-- **C3** counterexample.  A run served by the ChromaDB tier: the
upstream similarity query (`collection.query`) is issued without any
preceding `track_api_call` — the trace is exactly one `chromaQuery`
event and contains no budget-gate event, so not every upstream call in
passage retrieval is preceded by a `track_api_call`. -/
theorem c3_counterexample :
    (extractRelevantPassages
        { bookFound := true, passageCache := none, chroma := some (some [("x".data, 0)]),
          readOk := true, content := [], title := "T", author := "A",
          parse := fun _ => none,
          groq := { hasApiKey := true, llmOk := true, md5Hex := fun x => x,
                    cacheKey := fun x => x, upstream := fun _ => "r" } }
        (cmInit 0 true 3600 50 100 [] none) 0 "q".data 3).2.2 = [REvent.chromaQuery] ∧
    ¬ gatedTrace (extractRelevantPassages
        { bookFound := true, passageCache := none, chroma := some (some [("x".data, 0)]),
          readOk := true, content := [], title := "T", author := "A",
          parse := fun _ => none,
          groq := { hasApiKey := true, llmOk := true, md5Hex := fun x => x,
                    cacheKey := fun x => x, upstream := fun _ => "r" } }
        (cmInit 0 true 3600 50 100 [] none) 0 "q".data 3).2.2 :=
  ⟨by decide, by decide⟩

/-- **C3** witness: the denied-budget clause evaluated on a manager with
`GROQ_RATE_LIMIT_PER_DAY = 0`: no LLM network event occurs and the
lexical fallback passages are returned. -/
theorem c3_witness :
    ((extractRelevantPassages
        { bookFound := true, passageCache := none, chroma := none, readOk := true,
          content := "hello".data, title := "T", author := "A",
          parse := fun _ => none,
          groq := { hasApiKey := true, llmOk := true, md5Hex := fun x => x,
                    cacheKey := fun x => x, upstream := fun _ => "r" } }
        (cmInit 0 true 3600 50 0 [] none) 0 "q".data 3).2.2).count REvent.llmNetwork = 0 ∧
    (extractRelevantPassages
        { bookFound := true, passageCache := none, chroma := none, readOk := true,
          content := "hello".data, title := "T", author := "A",
          parse := fun _ => none,
          groq := { hasApiKey := true, llmOk := true, md5Hex := fun x => x,
                    cacheKey := fun x => x, upstream := fun _ => "r" } }
        (cmInit 0 true 3600 50 0 [] none) 0 "q".data 3).1 =
      approach2Fallback
        (topCandidates "q".data
          (buildChunks 500 (paragraphs "hello".data)) 3) 3 :=
  c3_llm_gating_amended.2
    { bookFound := true, passageCache := none, chroma := none, readOk := true,
      content := "hello".data, title := "T", author := "A",
      parse := fun _ => none,
      groq := { hasApiKey := true, llmOk := true, md5Hex := fun x => x,
                cacheKey := fun x => x, upstream := fun _ => "r" } }
    (cmInit 0 true 3600 50 0 [] none) 0 "q".data 3 0 0
    rfl rfl rfl rfl (fun r => rfl) rfl rfl (by decide) rfl (by decide) (by decide)
    (by decide)

theorem approach1_unparsed (env : RagEnv) (s : CMState String) (now : Int)
    (query : List Char) (mp : Nat) (hparse : ∀ r, env.parse r = none) :
    approach1 env s now query mp =
      (none,
        (generateText env.groq s now (promptA env.title env.author query env.content)).2.1,
        (generateText env.groq s now (promptA env.title env.author query env.content)).2.2) := by
  unfold approach1
  dsimp only
  rw [hparse]

theorem approach2_unparsed (env : RagEnv) (s : CMState String) (now : Int)
    (query : List Char) (chunks : List (List Char)) (mp : Nat)
    (hparse : ∀ r, env.parse r = none) :
    (approach2 env s now query chunks mp).1 =
      approach2Fallback (topCandidates query chunks mp) mp := by
  unfold approach2
  dsimp only
  rw [hparse]

/-- **C8**.  When every LLM response is unparseable (no JSON can be
extracted), `_extract_relevant_passages` on the non-ChromaDB path still
returns the fallback list: the top lexical-score candidates verbatim,
truncated to `max_passages` (so its length is
`min max_passages (candidate count)`), each carrying the generic
relevance note `"Matched query keywords"`; the parse failure is caught
locally and no exception reaches the caller (the embedding is a total
function ending in this fallback branch). -/
theorem c8_unparseable_fallback : ∀ (env : RagEnv) (s : CMState String) (now : Int)
    (query : List Char) (mp : Nat),
    env.bookFound = true → env.passageCache = none → env.chroma = none →
    env.readOk = true → (∀ r, env.parse r = none) →
    (extractRelevantPassages env s now query mp).1 =
      approach2Fallback
        (topCandidates query (buildChunks 500 (paragraphs env.content)) mp) mp ∧
    (extractRelevantPassages env s now query mp).1.length =
      min mp (topCandidates query (buildChunks 500 (paragraphs env.content)) mp).length ∧
    (∀ p ∈ (extractRelevantPassages env s now query mp).1,
      p.relevance = "Matched query keywords" ∧
      p.text ∈ (topCandidates query (buildChunks 500 (paragraphs env.content)) mp).map
        (fun t => t.2.2)) := by
  intro env s now query mp hbf hpc hch hro hparse
  have hmain : (extractRelevantPassages env s now query mp).1 =
      approach2Fallback
        (topCandidates query (buildChunks 500 (paragraphs env.content)) mp) mp := by
    unfold extractRelevantPassages
    rw [if_neg (by simp [hbf])]
    cases hpc2 : env.passageCache with
    | some ps => rw [hpc] at hpc2; exact absurd hpc2 (by simp)
    | none =>
      dsimp only
      rw [hch]
      dsimp only
      rw [if_neg (by simp [hro])]
      by_cases hchunks : (buildChunks 500 (paragraphs env.content)).length < 50
      · rw [if_pos hchunks]
        rw [approach1_unparsed env s now query mp hparse]
        dsimp only
        exact approach2_unparsed env _ now query _ mp hparse
      · rw [if_neg hchunks]
        exact approach2_unparsed env s now query _ mp hparse
  refine ⟨hmain, ?_, ?_⟩
  · rw [hmain]
    unfold approach2Fallback
    simp [List.length_take]
  · rw [hmain]
    intro p hp
    unfold approach2Fallback at hp
    obtain ⟨t, hmem, hpt⟩ := List.mem_map.mp hp
    subst hpt
    exact ⟨rfl, List.mem_map.mpr ⟨t, List.mem_of_mem_take hmem, rfl⟩⟩

/-- **C8** witness: the fallback property evaluated on a one-chunk
document with an always-unparseable LLM response: the single passage is
the chunk verbatim with the generic relevance note. -/
theorem c8_witness :
    (extractRelevantPassages
        { bookFound := true, passageCache := none, chroma := none, readOk := true,
          content := "hello world".data, title := "T", author := "A",
          parse := fun _ => none,
          groq := { hasApiKey := true, llmOk := true, md5Hex := fun x => x,
                    cacheKey := fun x => x, upstream := fun _ => "garbage" } }
        (cmInit 0 true 3600 50 100 [] none) 0 "alpha".data 3).1 =
      approach2Fallback
        (topCandidates "alpha".data (buildChunks 500 (paragraphs "hello world".data)) 3)
        3 ∧
    (extractRelevantPassages
        { bookFound := true, passageCache := none, chroma := none, readOk := true,
          content := "hello world".data, title := "T", author := "A",
          parse := fun _ => none,
          groq := { hasApiKey := true, llmOk := true, md5Hex := fun x => x,
                    cacheKey := fun x => x, upstream := fun _ => "garbage" } }
        (cmInit 0 true 3600 50 100 [] none) 0 "alpha".data 3).1.length =
      min 3 (topCandidates "alpha".data
        (buildChunks 500 (paragraphs "hello world".data)) 3).length := by
  have h := c8_unparseable_fallback
    { bookFound := true, passageCache := none, chroma := none, readOk := true,
      content := "hello world".data, title := "T", author := "A",
      parse := fun _ => none,
      groq := { hasApiKey := true, llmOk := true, md5Hex := fun x => x,
                cacheKey := fun x => x, upstream := fun _ => "garbage" } }
    (cmInit 0 true 3600 50 100 [] none) 0 "alpha".data 3
    rfl rfl rfl rfl (fun r => rfl)
  exact ⟨h.1, h.2.1⟩
